import Mathlib

/-!
Verification of the dashboard-URL decoder and the typed request pipeline of
the metabase-mcp repository.

The development shallowly embeds the JavaScript sources:
  * `src/src/shared/utils/urlDecoder.js` (class `DashboardUrlDecoder`),
  * `src/src/server/index.js` (class `ApiClient`, error classes),
  * `src/src/client/MetabaseClient.js` (class `MetabaseClient`).

JavaScript values reachable by this code are modelled by the inductive
`JSValue`.  Numbers are modelled as exact decimals `mantissa * 10 ^ exp10`
(JavaScript doubles are not modelled; every concrete input used below is a
small integer, where the two agree).  Thrown JavaScript exceptions are
modelled by `Except`: raw runtime errors (`TypeError`, `SyntaxError`, plain
`Error`) as `JsErr`, and the repository error hierarchy from
`MetabaseError.js` as `MbError`.  The `timestamp` field that the base class
`MetabaseError` stores (`new Date().toISOString()`) is deliberately not
modelled: none of the claims compares timestamps, and every claim about
failures compares only kind, message, field and value.
-/

/-- A raw JavaScript exception (e.g. `TypeError`, `SyntaxError`), carrying its
`name` and `message`.  The exact message texts of the host runtime are not
reproduced verbatim; no theorem below depends on them. -/
structure JsErr where
  name : String
  message : String

/-- JavaScript values, as far as the decoder and pipeline can observe them.
`num m e` is the exact decimal `m * 10 ^ e`.  `jsFunc` stands for a function
value: object property reads on an array can hit `Array.prototype.filter`,
which is a (truthy) function; no other property name read by this code
collides with a built-in. -/
inductive JSValue where
  | null
  | undefined
  | bool (b : Bool)
  | num (mantissa : Int) (exp10 : Int)
  | str (s : String)
  | arr (elems : List JSValue)
  | obj (fields : List (String × JSValue))
  | jsFunc

/-- JavaScript truthiness of a value (`if (v)`).  `NaN` does not arise in the
model, so a number is falsy exactly when its mantissa is zero. -/
def truthy : JSValue → Bool
  | .null => false
  | .undefined => false
  | .bool b => b
  | .num m _ => !(m == 0)
  | .str s => !(s == "")
  | .arr _ => true
  | .obj _ => true
  | .jsFunc => true

/-- Own-property lookup on an object's field list: first binding wins.
Objects built by `jsonParse` below always have distinct keys (duplicates are
collapsed as `JSON.parse` does), so first-match equals JavaScript lookup. -/
def objLookup : List (String × JSValue) → String → JSValue
  | [], _ => .undefined
  | (k', v) :: rest, k => if k = k' then v else objLookup rest k

/-- Non-throwing property read `v[k]`, defined for values on which a property
read cannot throw (everything except `null`/`undefined`).  On an array, the
name `filter` resolves to `Array.prototype.filter`, a function; no other
property name read by the embedded code is a built-in of any primitive. -/
def propOf : JSValue → String → JSValue
  | .obj fields, k => objLookup fields k
  | .arr _, k => if k = "filter" then .jsFunc else .undefined
  | _, _ => .undefined

/-- Property read `v[k]` as executed by JavaScript: throws `TypeError` on
`null` and `undefined`, otherwise returns `propOf v k`. -/
def getProp : JSValue → String → Except JsErr JSValue
  | .null, k =>
      .error ⟨("TypeError"), ("Cannot read properties of null (reading " ++ k ++ ")")⟩
  | .undefined, k =>
      .error ⟨("TypeError"), ("Cannot read properties of undefined (reading " ++ k ++ ")")⟩
  | v, k => .ok (propOf v k)

/-- `objUpsert fields (k, v)`: JavaScript property assignment on an object
literal under construction — an existing key keeps its position and gets the
new value, a new key is appended. -/
def objUpsert : List (String × JSValue) → String × JSValue → List (String × JSValue)
  | [], kv => [kv]
  | (k', v') :: rest, (k, v) =>
      if k' = k then (k', v) :: rest else (k', v') :: objUpsert rest (k, v)

/-- The object-spread `\x7b...a, ...b\x7d` on field lists: every binding of
`b` is upserted into `a`, in order. -/
def objSpreadFields (a b : List (String × JSValue)) : List (String × JSValue) :=
  b.foldl objUpsert a

/-- Boolean success test on an `Except`. -/
def exceptIsOk : Except ε α → Bool
  | .ok _ => true
  | .error _ => false

/-! ### Node's base64 decoder

`Buffer.from(fragment, 'base64')` never throws: it maps characters of the
standard and URL-safe alphabets to sextets, silently *skips* every other
character (the Node documentation guarantees this at least for whitespace),
and stops at the first `=`.  The collected sextets are then packed into
bytes; a trailing group of a single sextet contributes no byte. -/

/-- Sextet value of a base64 character, accepting the standard and the
URL-safe alphabet (as Node does); `none` for every other character. -/
def b64Val (c : Char) : Option Nat :=
  if 'A' ≤ c ∧ c ≤ 'Z' then some (c.toNat - 65)
  else if 'a' ≤ c ∧ c ≤ 'z' then some (c.toNat - 97 + 26)
  else if '0' ≤ c ∧ c ≤ '9' then some (c.toNat - 48 + 52)
  else if c = '+' ∨ c = '-' then some 62
  else if c = '/' ∨ c = '_' then some 63
  else none

/-- Collect the sextets of a base64 string the way Node's decoder does:
skip characters outside the alphabet, stop at the first `=`. -/
def b64Sextets : List Char → List Nat
  | [] => []
  | c :: rest =>
      if c = '=' then []
      else
        match b64Val c with
        | some v => v :: b64Sextets rest
        | none => b64Sextets rest

/-- Pack sextets into bytes (big-endian bit order); trailing bits that do not
fill a byte are dropped. -/
def sextetsToBytes : List Nat → List Nat
  | a :: b :: c :: d :: rest =>
      (a * 4 + b / 16) :: ((b % 16) * 16 + c / 4) :: ((c % 4) * 64 + d) :: sextetsToBytes rest
  | [a, b] => [a * 4 + b / 16]
  | [a, b, c] => [a * 4 + b / 16, (b % 16) * 16 + c / 4]
  | _ => []

/-- The Unicode replacement character. -/
def replacementChar : Char := '�'

/-- A `Char` from a code point, falling back to the replacement character on
surrogates and out-of-range values. -/
def mkChar (n : Nat) : Char :=
  if n < 0xD800 ∨ (0xE000 ≤ n ∧ n ≤ 0x10FFFF) then Char.ofNat n else replacementChar

/-- Whether a byte is a UTF-8 continuation byte. -/
def isCont (b : Nat) : Bool := 0x80 ≤ b && b ≤ 0xBF

/-- UTF-8 decoding of a byte list, invalid sequences becoming the
replacement character — modelling `buffer.toString('utf-8')`.  (Node's exact
resynchronisation on malformed input is not reproduced byte-for-byte; every
concrete input below is plain ASCII, where all decoders agree.) -/
def utf8Decode : List Nat → List Char
  | [] => []
  | b :: rest =>
      if b < 0x80 then mkChar b :: utf8Decode rest
      else if 0xC2 ≤ b ∧ b ≤ 0xDF then
        match rest with
        | b2 :: rest2 =>
            if isCont b2 then mkChar ((b - 0xC0) * 64 + (b2 - 0x80)) :: utf8Decode rest2
            else replacementChar :: utf8Decode (b2 :: rest2)
        | [] => [replacementChar]
      else if 0xE0 ≤ b ∧ b ≤ 0xEF then
        match rest with
        | b2 :: b3 :: rest3 =>
            if isCont b2 && isCont b3 then
              mkChar ((b - 0xE0) * 4096 + (b2 - 0x80) * 64 + (b3 - 0x80)) :: utf8Decode rest3
            else replacementChar :: utf8Decode (b2 :: b3 :: rest3)
        | [b2] => replacementChar :: utf8Decode [b2]
        | [] => [replacementChar]
      else if 0xF0 ≤ b ∧ b ≤ 0xF4 then
        match rest with
        | b2 :: b3 :: b4 :: rest4 =>
            if isCont b2 && isCont b3 && isCont b4 then
              mkChar ((b - 0xF0) * 262144 + (b2 - 0x80) * 4096 + (b3 - 0x80) * 64 + (b4 - 0x80))
                :: utf8Decode rest4
            else replacementChar :: utf8Decode (b2 :: b3 :: b4 :: rest4)
        | [b2, b3] => replacementChar :: utf8Decode [b2, b3]
        | [b2] => replacementChar :: utf8Decode [b2]
        | [] => [replacementChar]
      else replacementChar :: utf8Decode rest

/-- `Buffer.from(s, 'base64').toString('utf-8')` as one total function. -/
def nodeB64Utf8 (s : String) : String :=
  String.mk (utf8Decode (sextetsToBytes (b64Sextets s.toList)))

/-! ### `JSON.parse`

A recursive-descent model of `JSON.parse`, fuel-bounded for termination (the
fuel supplied by `jsonParse` is always sufficient: every unit of fuel spent
consumes at least one input character).  Duplicate object keys are collapsed
exactly as `JSON.parse` collapses them: the later value wins, the key keeps
its first position.  Escaped lone surrogates (which JavaScript strings can
hold but Lean `Char` cannot) become the replacement character; no concrete
input below contains them. -/

/-- JSON whitespace skipping. -/
def skipWs (l : List Char) : List Char :=
  l.dropWhile fun c => c = ' ' || c = '\t' || c = '\n' || c = '\r'

/-- The generic syntax-error result. -/
def jsonSyntaxErr : JsErr := ⟨("SyntaxError"), ("Unexpected token in JSON")⟩

/-- Value of a hexadecimal digit. -/
def hexVal (c : Char) : Option Nat :=
  if '0' ≤ c ∧ c ≤ '9' then some (c.toNat - 48)
  else if 'a' ≤ c ∧ c ≤ 'f' then some (c.toNat - 87)
  else if 'A' ≤ c ∧ c ≤ 'F' then some (c.toNat - 55)
  else none

/-- Parse the remainder of a JSON string literal (the opening quote already
consumed), accumulating characters in reverse. -/
def parseStringF : Nat → List Char → List Char → Except JsErr (String × List Char)
  | 0, _, _ => .error jsonSyntaxErr
  | fuel + 1, acc, l =>
      match l with
      | [] => .error jsonSyntaxErr
      | '"' :: rest => .ok (String.mk acc.reverse, rest)
      | '\\' :: esc =>
          match esc with
          | '"' :: r => parseStringF fuel ('"' :: acc) r
          | '\\' :: r => parseStringF fuel ('\\' :: acc) r
          | '/' :: r => parseStringF fuel ('/' :: acc) r
          | 'b' :: r => parseStringF fuel ('\x08' :: acc) r
          | 'f' :: r => parseStringF fuel ('\x0c' :: acc) r
          | 'n' :: r => parseStringF fuel ('\n' :: acc) r
          | 'r' :: r => parseStringF fuel ('\r' :: acc) r
          | 't' :: r => parseStringF fuel ('\t' :: acc) r
          | 'u' :: h1 :: h2 :: h3 :: h4 :: r =>
              match hexVal h1, hexVal h2, hexVal h3, hexVal h4 with
              | some a, some b, some c, some d =>
                  let n := a * 4096 + b * 256 + c * 16 + d
                  if 0xD800 ≤ n ∧ n ≤ 0xDBFF then
                    match r with
                    | '\\' :: 'u' :: k1 :: k2 :: k3 :: k4 :: r2 =>
                        match hexVal k1, hexVal k2, hexVal k3, hexVal k4 with
                        | some a2, some b2, some c2, some d2 =>
                            let m := a2 * 4096 + b2 * 256 + c2 * 16 + d2
                            if 0xDC00 ≤ m ∧ m ≤ 0xDFFF then
                              parseStringF fuel
                                (mkChar (0x10000 + (n - 0xD800) * 1024 + (m - 0xDC00)) :: acc) r2
                            else parseStringF fuel (replacementChar :: acc) r
                        | _, _, _, _ => parseStringF fuel (replacementChar :: acc) r
                    | _ => parseStringF fuel (replacementChar :: acc) r
                  else parseStringF fuel (mkChar n :: acc) r
              | _, _, _, _ => .error jsonSyntaxErr
          | _ => .error jsonSyntaxErr
      | c :: rest =>
          if c.toNat < 0x20 then .error jsonSyntaxErr
          else parseStringF fuel (c :: acc) rest

/-- Natural number from a list of decimal digits. -/
def natOfDigits (l : List Char) : Nat :=
  l.foldl (fun acc c => acc * 10 + (c.toNat - 48)) 0

/-- Parse a JSON number starting at the head of the input, returning the
exact decimal as mantissa and power-of-ten exponent. -/
def parseNumber (l : List Char) : Except JsErr ((Int × Int) × List Char) :=
  let (neg, l1) := match l with
    | '-' :: r => (true, r)
    | _ => (false, l)
  let intDigits := l1.takeWhile Char.isDigit
  let l2 := l1.dropWhile Char.isDigit
  match intDigits with
  | [] => .error jsonSyntaxErr
  | '0' :: _ :: _ => .error jsonSyntaxErr
  | _ =>
    let (fracDigits, l3) := match l2 with
      | '.' :: r =>
          (r.takeWhile Char.isDigit, r.dropWhile Char.isDigit)
      | _ => ([], l2)
    if l2 ≠ l3 ∧ fracDigits = [] then .error jsonSyntaxErr
    else
      let (expOk, expNeg, expDigits, l4) := match l3 with
        | 'e' :: '+' :: r => (true, false, r.takeWhile Char.isDigit, r.dropWhile Char.isDigit)
        | 'e' :: '-' :: r => (true, true, r.takeWhile Char.isDigit, r.dropWhile Char.isDigit)
        | 'e' :: r => (true, false, r.takeWhile Char.isDigit, r.dropWhile Char.isDigit)
        | 'E' :: '+' :: r => (true, false, r.takeWhile Char.isDigit, r.dropWhile Char.isDigit)
        | 'E' :: '-' :: r => (true, true, r.takeWhile Char.isDigit, r.dropWhile Char.isDigit)
        | 'E' :: r => (true, false, r.takeWhile Char.isDigit, r.dropWhile Char.isDigit)
        | _ => (false, false, [], l3)
      if expOk ∧ expDigits = [] then .error jsonSyntaxErr
      else
        let mantNat : Nat := natOfDigits (intDigits ++ fracDigits)
        let mant : Int := if neg then -(mantNat : Int) else (mantNat : Int)
        let expVal : Int := if expNeg then -((natOfDigits expDigits : Nat) : Int)
          else ((natOfDigits expDigits : Nat) : Int)
        .ok ((mant, expVal - (fracDigits.length : Int)), l4)

mutual

/-- Parse one JSON value (leading whitespace allowed). -/
def parseValueF : Nat → List Char → Except JsErr (JSValue × List Char)
  | 0, _ => .error jsonSyntaxErr
  | fuel + 1, l =>
      match skipWs l with
      | [] => .error ⟨("SyntaxError"), ("Unexpected end of JSON input")⟩
      | 'n' :: 'u' :: 'l' :: 'l' :: r => .ok (.null, r)
      | 't' :: 'r' :: 'u' :: 'e' :: r => .ok (.bool true, r)
      | 'f' :: 'a' :: 'l' :: 's' :: 'e' :: r => .ok (.bool false, r)
      | '"' :: r =>
          match parseStringF (fuel + 1) [] r with
          | .error e => .error e
          | .ok (s, r2) => .ok (.str s, r2)
      | '[' :: r => parseArrayItems fuel r
      | '{' :: r => parseObjItems fuel r
      | c :: r =>
          if c = '-' ∨ c.isDigit then
            match parseNumber (c :: r) with
            | .error e => .error e
            | .ok ((m, e10), r2) => .ok (.num m e10, r2)
          else .error jsonSyntaxErr

/-- Parse array elements after `[`, including the closing `]`. -/
def parseArrayItems : Nat → List Char → Except JsErr (JSValue × List Char)
  | 0, _ => .error jsonSyntaxErr
  | fuel + 1, l =>
      match skipWs l with
      | ']' :: r => .ok (.arr [], r)
      | l' =>
          match parseArrayCont fuel l' with
          | .error e => .error e
          | .ok (xs, r) => .ok (.arr xs, r)

/-- Parse one or more comma-separated array elements, then `]`. -/
def parseArrayCont : Nat → List Char → Except JsErr (List JSValue × List Char)
  | 0, _ => .error jsonSyntaxErr
  | fuel + 1, l =>
      match parseValueF fuel l with
      | .error e => .error e
      | .ok (v, r) =>
          match skipWs r with
          | ',' :: r2 =>
              match parseArrayCont fuel r2 with
              | .error e => .error e
              | .ok (vs, r3) => .ok (v :: vs, r3)
          | ']' :: r2 => .ok ([v], r2)
          | _ => .error jsonSyntaxErr

/-- Parse object members after `{`, including the closing `}`; duplicate
keys are collapsed with later-value-wins. -/
def parseObjItems : Nat → List Char → Except JsErr (JSValue × List Char)
  | 0, _ => .error jsonSyntaxErr
  | fuel + 1, l =>
      match skipWs l with
      | '}' :: r => .ok (.obj [], r)
      | l' =>
          match parseObjCont fuel l' with
          | .error e => .error e
          | .ok (fs, r) => .ok (.obj (fs.foldl objUpsert []), r)

/-- Parse one or more comma-separated `"key": value` members, then `}`. -/
def parseObjCont : Nat → List Char → Except JsErr (List (String × JSValue) × List Char)
  | 0, _ => .error jsonSyntaxErr
  | fuel + 1, l =>
      match skipWs l with
      | '"' :: r =>
          match parseStringF (fuel + 1) [] r with
          | .error e => .error e
          | .ok (k, r1) =>
              match skipWs r1 with
              | ':' :: r2 =>
                  match parseValueF fuel r2 with
                  | .error e => .error e
                  | .ok (v, r3) =>
                      match skipWs r3 with
                      | ',' :: r4 =>
                          match parseObjCont fuel r4 with
                          | .error e => .error e
                          | .ok (fs, r5) => .ok ((k, v) :: fs, r5)
                      | '}' :: r4 => .ok ([(k, v)], r4)
                      | _ => .error jsonSyntaxErr
              | _ => .error jsonSyntaxErr
      | _ => .error jsonSyntaxErr

end

/-- `JSON.parse(s)`: parse one value and require only whitespace after it. -/
def jsonParse (s : String) : Except JsErr JSValue :=
  match parseValueF (2 * s.length + 4) s.toList with
  | .error e => .error e
  | .ok (v, rest) =>
      if skipWs rest = [] then .ok v else .error jsonSyntaxErr

/-! ### The error taxonomy of `MetabaseError.js`

Each subclass of `MetabaseError` becomes one constructor; the structured
fields are exactly the constructor arguments of the JavaScript classes.
`jsRaw` stands for an exception that is *not* one of the repository's error
kinds (a raw `TypeError`/`SyntaxError`/`Error` in flight before some
`catch` rewraps it).  The `value` argument of `ValidationError` is a string
here because the decoder only ever passes the input URL. -/
inductive MbError where
  | validationError (message : String) (field : String) (value : String)
  | apiError (message : String) (statusCode : Nat) (endpoint : String) (responseText : String)
  | timeoutError (message : String) (operation : String) (timeoutMs : Nat)
  | jsRaw (e : JsErr)

/-- The `message` carried by an error (of the base class or of a raw
exception). -/
def mbMessage : MbError → String
  | .validationError m _ _ => m
  | .apiError m _ _ _ => m
  | .timeoutError m _ _ => m
  | .jsRaw e => e.message

/-! ### `DashboardUrlDecoder` (src/src/shared/utils/urlDecoder.js) -/

/-- `String.prototype.split` with a one-character separator: the list of
(possibly empty) chunks between occurrences of the separator. -/
def splitOnChar (c : Char) : List Char → List (List Char)
  | [] => [[]]
  | x :: xs =>
      match splitOnChar c xs with
      | [] => [[]]
      | g :: gs => if x = c then [] :: g :: gs else (x :: g) :: gs

/-- `url.split('#')[1]`.  When the URL has no `#`, the JavaScript index read
yields `undefined`; both `undefined` and the empty string fail the decoder's
`!fragment` test, so the model merges them into `""`. -/
def fragmentOf (url : String) : String :=
  match splitOnChar '#' url.toList with
  | _ :: f :: _ => String.mk f
  | _ => ""

/-- The result object of `DashboardUrlDecoder.decode`. -/
structure Payload where
  originalCardId : JSValue
  datasetQuery : JSValue
  parameters : List (String × JSValue)
  display : JSValue
  visualizationSettings : JSValue
  name : JSValue
  description : JSValue

/-- `if (v) parameters[k] = v` — the guarded copy used for each extracted
parameter key. -/
def maybePair (k : String) (v : JSValue) : List (String × JSValue) :=
  if truthy v then [(k, v)] else []

/-- The `datasetQuery.type !== 'query'` test (strict string comparison). -/
def isQueryType : JSValue → Bool
  | .str s => s == "query"
  | _ => false

/-- `DashboardUrlDecoder.extractParametersFromQuery`.  The early return fires
when `!datasetQuery || datasetQuery.type !== 'query'`; those property reads
cannot throw because `datasetQuery` is then truthy.  The first guarded read
`query.filter` throws a `TypeError` exactly when `query` is `null` or
`undefined` (modelled by `getProp`); once it has succeeded, the remaining
five reads cannot throw, so they use the non-throwing `propOf`. -/
def extractParametersFromQuery (datasetQuery : JSValue) : Except JsErr (List (String × JSValue)) :=
  if truthy datasetQuery = false then .ok []
  else if isQueryType (propOf datasetQuery ("type")) = false then .ok []
  else
    let query := propOf datasetQuery ("query")
    match getProp query ("filter") with
    | .error e => .error e
    | .ok f =>
        .ok (maybePair ("filters") f ++
             maybePair ("aggregations") (propOf query ("aggregation")) ++
             maybePair ("breakouts") (propOf query ("breakout")) ++
             maybePair ("sourceTable") (propOf query ("source-table")) ++
             maybePair ("orderBy") (propOf query ("order-by")) ++
             maybePair ("limit") (propOf query ("limit")))

/-- The body of `decode`'s `try` block after the fragment test: base64-decode
the fragment, `JSON.parse` it, and build the result object.  The property
reads happen in the source's order; each can throw only while `data` is
`null`/`undefined`, i.e. all succeed or the first one throws. -/
def decodeFragment (fragment : String) : Except JsErr Payload :=
  match jsonParse (nodeB64Utf8 fragment) with
  | .error e => .error e
  | .ok data =>
      match getProp data ("original_card_id") with
      | .error e => .error e
      | .ok originalCardId =>
          match getProp data ("dataset_query") with
          | .error e => .error e
          | .ok datasetQuery =>
              match extractParametersFromQuery datasetQuery with
              | .error e => .error e
              | .ok parameters =>
                  match getProp data ("display") with
                  | .error e => .error e
                  | .ok display =>
                      match getProp data ("visualization_settings") with
                      | .error e => .error e
                      | .ok visualizationSettings =>
                          match getProp data ("name") with
                          | .error e => .error e
                          | .ok nm =>
                              match getProp data ("description") with
                              | .error e => .error e
                              | .ok description =>
                                  .ok ⟨originalCardId, datasetQuery, parameters, display,
                                       visualizationSettings, nm, description⟩

/-- The `try` block of `DashboardUrlDecoder.decode`: the fragment test with
its `ValidationError`, then the decoding pipeline, whose raw exceptions
propagate (`jsRaw`). -/
def decodeTry (url : String) : Except MbError Payload :=
  if fragmentOf url = "" then
    .error (.validationError ("No fragment found in URL") ("url") url)
  else
    match decodeFragment (fragmentOf url) with
    | .ok p => .ok p
    | .error e => .error (.jsRaw e)

/-- The `catch` block of `decode`: `instanceof ValidationError` is rethrown
unchanged; every other exception is wrapped into a `ValidationError` with
field `"url"` and the original input as value. -/
def rethrowAsValidation (url : String) : Except MbError Payload → Except MbError Payload
  | .ok p => .ok p
  | .error (.validationError m f v) => .error (.validationError m f v)
  | .error e =>
      .error (.validationError ("Failed to decode dashboard URL: " ++ mbMessage e) ("url") url)

/-- `DashboardUrlDecoder.decode`. -/
def decode (url : String) : Except MbError Payload :=
  rethrowAsValidation url (decodeTry url)

/-! ### Spec-side comparison definitions

These definitions follow the specification's words (not the source); they
exist only to state refutations and amended claims precisely. -/

/-- Following the spec's words (§4.1 Step 1): "split the input on the first
`#`; take everything after it as the fragment" — the *entire* remainder,
including any further `#` characters.  Empty when there is no `#` or
nothing follows it. -/
def afterFirstHash (url : String) : String :=
  match url.toList.dropWhile (fun c => c ≠ '#') with
  | _ :: rest => String.mk rest
  | [] => ""

/-- Following the spec's words: `decode` with the fragment taken as
everything after the first `#` (identical to `decode` in every other
respect). -/
def decodeSpecModel (url : String) : Except MbError Payload :=
  rethrowAsValidation url
    (if afterFirstHash url = "" then
      .error (.validationError ("No fragment found in URL") ("url") url)
    else
      match decodeFragment (afterFirstHash url) with
      | .ok p => .ok p
      | .error e => .error (.jsRaw e))

/-- Whether a character belongs to the standard base64 alphabet. -/
def isStdB64Char (c : Char) : Bool :=
  ('A' ≤ c && c ≤ 'Z') || ('a' ≤ c && c ≤ 'z') || ('0' ≤ c && c ≤ '9') || c = '+' || c = '/'

/-- Syntactic validity of standard base64 (RFC 4648 §4): alphabet characters
only, at most two `=` of padding at the end, total length a multiple of
four.  This is the spec's "standard base64 ... invalid base64
alphabet/padding" notion, used to state what "syntactically invalid"
means in the claims. -/
def isValidStdBase64 (s : String) : Bool :=
  let l := s.toList
  let pad := (l.reverse.takeWhile (fun c => c = '=')).length
  (pad ≤ 2) && (l.length % 4 = 0) && ((l.take (l.length - pad)).all isStdB64Char)

/-- The parameter mapping the (amended) claim C1 predicts for a source query
object `q`: each of the six listed keys is copied, renamed, exactly when it
is present *with a truthy value*; output order is the source's copy order. -/
def expectedParams (q : List (String × JSValue)) : List (String × JSValue) :=
  maybePair ("filters") (objLookup q ("filter")) ++
  maybePair ("aggregations") (objLookup q ("aggregation")) ++
  maybePair ("breakouts") (objLookup q ("breakout")) ++
  maybePair ("sourceTable") (objLookup q ("source-table")) ++
  maybePair ("orderBy") (objLookup q ("order-by")) ++
  maybePair ("limit") (objLookup q ("limit"))

/-! ### The typed request pipeline

`ApiClient` (src/src/server/index.js) and `MetabaseClient`
(src/src/client/MetabaseClient.js) both wrap `fetch`.  The network is an
input of the model: a `FetchOutcome` says what the underlying `fetch` call
did — completed with a response, hung past the timeout (so the
`AbortController` fired and `fetch` rejected with an `AbortError`), or
rejected with some other error. -/

/-- A completed HTTP response, as observed by the code: status, status text,
the `content-type` header (`none` when absent), and the body text. -/
structure FetchResponse where
  status : Nat
  statusText : String
  contentType : Option String
  body : String

/-- What the underlying `fetch` did. -/
inductive FetchOutcome where
  | completes (r : FetchResponse)
  | hangs
  | fails (name : String) (message : String)

/-- `response.ok`: status in the 2xx range. -/
def responseOk (r : FetchResponse) : Bool :=
  decide (200 ≤ r.status) && decide (r.status < 300)

/-- Substring test on char lists (`String.prototype.includes`). -/
def containsSub (h n : List Char) : Bool :=
  if n.isPrefixOf h then true
  else
    match h with
    | [] => false
    | _ :: t => containsSub t n

/-- `ct.includes('application/json')`. -/
def ctIncludesJson (ct : String) : Bool :=
  containsSub ct.toList ("application/json").toList

/-- The defensive content-type test of both `makeRequest`s:
`!contentType || !contentType.includes('application/json')`. -/
def contentTypeIsJson : Option String → Bool
  | none => false
  | some ct => ctIncludesJson ct

/-- The default header object `\x7b'Content-Type': ..., 'X-API-Key': apiKey\x7d`. -/
def defaultHeadersObj (apiKey : String) : JSValue :=
  .obj [(("Content-Type"), .str ("application/json")), (("X-API-Key"), .str apiKey)]

/-- `ApiClient.makeRequest`'s option merge:
`const requestOptions = \x7b ...defaultOptions, ...options \x7d` where
`defaultOptions` has the single key `headers`.  A caller-supplied `headers`
binding therefore *replaces* the default headers object wholesale. -/
def ApiClient.requestOptionsOf (apiKey : String) (options : List (String × JSValue)) :
    List (String × JSValue) :=
  objSpreadFields [(("headers"), defaultHeadersObj apiKey)] options

/-- `MetabaseClient.makeRequest`'s option merge:
`\x7b headers: \x7b...this.defaultHeaders\x7d, ...options \x7d` — the same
spread shape as the server's. -/
def MetabaseClient.requestOptionsOf (apiKey : String) (options : List (String × JSValue)) :
    List (String × JSValue) :=
  objSpreadFields [(("headers"), defaultHeadersObj apiKey)] options

/-- `ApiClient.fetchWithTimeout`: a completed response is returned and the
timer cleared; an `AbortError` (the abort controller fired after `timeout`
milliseconds) becomes `TimeoutError('Request timeout after <t>ms', 'fetch',
timeout)`; any other rejection is rethrown raw. -/
def ApiClient.fetchWithTimeout (outcome : FetchOutcome) (timeout : Nat) :
    Except MbError FetchResponse :=
  match outcome with
  | .completes r => .ok r
  | .hangs =>
      .error (.timeoutError ("Request timeout after " ++ toString timeout ++ "ms")
        ("fetch") timeout)
  | .fails n m =>
      if n = "AbortError" then
        .error (.timeoutError ("Request timeout after " ++ toString timeout ++ "ms")
          ("fetch") timeout)
      else .error (.jsRaw ⟨n, m⟩)

/-- `MetabaseClient.fetchWithTimeout`: identical control flow, but the
timeout is rethrown as a *plain* `Error` (the client file does not import
`TimeoutError`). -/
def MetabaseClient.fetchWithTimeout (outcome : FetchOutcome) (timeout : Nat) :
    Except MbError FetchResponse :=
  match outcome with
  | .completes r => .ok r
  | .hangs =>
      .error (.jsRaw ⟨("Error"), ("Request timeout after " ++ toString timeout ++ "ms")⟩)
  | .fails n m =>
      if n = "AbortError" then
        .error (.jsRaw ⟨("Error"), ("Request timeout after " ++ toString timeout ++ "ms")⟩)
      else .error (.jsRaw ⟨n, m⟩)

/-- The response-classification body shared by both `makeRequest`s: non-2xx
becomes `ApiError(status, endpoint, bodyText)`; a 2xx with a missing or
non-JSON content type becomes `ApiError(status, endpoint, body.substring(0,
500))`; otherwise `response.json()` — whose `SyntaxError` on a malformed
body propagates raw. -/
def classifyResponse (endpoint : String) (r : FetchResponse) : Except MbError JSValue :=
  if responseOk r = false then
    .error (.apiError ("API request failed: " ++ toString r.status ++ " " ++ r.statusText)
      r.status endpoint r.body)
  else if contentTypeIsJson r.contentType = false then
    .error (.apiError ("Non-JSON response received") r.status endpoint (r.body.take 500))
  else
    match jsonParse r.body with
    | .ok v => .ok v
    | .error e => .error (.jsRaw e)

/-- The `catch` of `ApiClient.makeRequest`: `ApiError` and `TimeoutError`
are rethrown; everything else is wrapped as `ApiError('Unexpected error:
...', 0, endpoint, message)`. -/
def ApiClient.wrapCatch (endpoint : String) :
    Except MbError JSValue → Except MbError JSValue
  | .ok v => .ok v
  | .error (.apiError m s ep t) => .error (.apiError m s ep t)
  | .error (.timeoutError m op t) => .error (.timeoutError m op t)
  | .error e =>
      .error (.apiError ("Unexpected error: " ++ mbMessage e) 0 endpoint (mbMessage e))

/-- The `catch` of `MetabaseClient.makeRequest`: only `ApiError` is
rethrown (the client file does not treat `TimeoutError` specially). -/
def MetabaseClient.wrapCatch (endpoint : String) :
    Except MbError JSValue → Except MbError JSValue
  | .ok v => .ok v
  | .error (.apiError m s ep t) => .error (.apiError m s ep t)
  | .error e =>
      .error (.apiError ("Unexpected error: " ++ mbMessage e) 0 endpoint (mbMessage e))

/-- `ApiClient.makeRequest` (src/src/server/index.js): fetch under timeout,
classify the response, normalise every other exception in the `catch`. -/
def ApiClient.makeRequest (timeout : Nat) (endpoint : String) (outcome : FetchOutcome) :
    Except MbError JSValue :=
  ApiClient.wrapCatch endpoint
    (match ApiClient.fetchWithTimeout outcome timeout with
     | .error e => .error e
     | .ok r => classifyResponse endpoint r)

/-- `MetabaseClient.makeRequest` (src/src/client/MetabaseClient.js): same
pipeline, with the client's `fetchWithTimeout` and `catch`. -/
def MetabaseClient.makeRequest (timeout : Nat) (endpoint : String) (outcome : FetchOutcome) :
    Except MbError JSValue :=
  MetabaseClient.wrapCatch endpoint
    (match MetabaseClient.fetchWithTimeout outcome timeout with
     | .error e => .error e
     | .ok r => classifyResponse endpoint r)

/-- The `MetabaseClient` constructor's base-URL normalisation:
`metabaseUrl.replace(/\/$/, '')` removes exactly one trailing slash when
present. -/
def stripTrailingSlash (u : String) : String :=
  if u.toList.getLast? = some '/' then String.mk u.toList.dropLast else u

/-- The target address composed by `MetabaseClient.makeRequest`:
`` `$\x7bthis.metabaseUrl\x7d$\x7bendpoint\x7d` `` with the constructor's
normalised base. -/
def MetabaseClient.requestUrl (metabaseUrl endpoint : String) : String :=
  stripTrailingSlash metabaseUrl ++ endpoint

/-! ### Helper lemmas -/

/-- On a truthy value a property read cannot throw. -/
theorem getProp_of_truthy (v : JSValue) (k : String) (h : truthy v = true) :
    getProp v k = .ok (propOf v k) := by
  cases v <;> first | rfl | simp [truthy] at h

/-- Property lookup after one upsert. -/
theorem objLookup_objUpsert (xs : List (String × JSValue)) (k : String) (v : JSValue)
    (q : String) :
    objLookup (objUpsert xs (k, v)) q = if q = k then v else objLookup xs q := by
  induction xs with
  | nil => simp [objUpsert, objLookup]
  | cons hd tl ih =>
    obtain ⟨k', v'⟩ := hd
    by_cases hkk : k' = k
    · subst hkk
      simp only [objUpsert, if_pos rfl, objLookup]
      by_cases hq : q = k' <;> simp [hq]
    · simp only [objUpsert, if_neg hkk, objLookup]
      by_cases hq : q = k'
      · have hqk : ¬q = k := fun hh => hkk (hq.symm.trans hh)
        simp [hq, hqk, hkk]
      · simp [hq, ih]

/-- The *last* binding of a key in a field list, `none` when absent — what
survives an object spread. -/
def lastLookup : List (String × JSValue) → String → Option JSValue
  | [], _ => none
  | (k', v) :: rest, k =>
      match lastLookup rest k with
      | some w => some w
      | none => if k = k' then some v else none

/-- Property lookup after an object spread: the spread-in bindings win
(last occurrence), otherwise the base object's binding survives. -/
theorem objLookup_objSpreadFields (ys xs : List (String × JSValue)) (q : String) :
    objLookup (objSpreadFields xs ys) q =
      match lastLookup ys q with
      | some w => w
      | none => objLookup xs q := by
  induction ys generalizing xs with
  | nil => simp [objSpreadFields, List.foldl, lastLookup]
  | cons hd tl ih =>
    obtain ⟨k, v⟩ := hd
    have hstep : objSpreadFields xs ((k, v) :: tl) = objSpreadFields (objUpsert xs (k, v)) tl :=
      rfl
    rw [hstep, ih]
    cases hlt : lastLookup tl q with
    | some w => simp [lastLookup, hlt]
    | none =>
      simp only [lastLookup, hlt, objLookup_objUpsert]
      by_cases hq : q = k <;> simp [hq]

/-- `splitOnChar` never returns the empty list. -/
theorem splitOnChar_ne_nil (c : Char) (l : List Char) : splitOnChar c l ≠ [] := by
  induction l with
  | nil => simp [splitOnChar]
  | cons x xs ih =>
    unfold splitOnChar
    cases h : splitOnChar c xs with
    | nil => simp
    | cons g gs => by_cases hx : x = c <;> simp [hx]

/-- The first chunk of `splitOnChar` is the prefix before the first
occurrence of the separator. -/
theorem splitOnChar_headI (c : Char) (l : List Char) :
    (splitOnChar c l).headI = l.takeWhile (fun x => x != c) := by
  induction l with
  | nil => rfl
  | cons x xs ih =>
    unfold splitOnChar
    cases h : splitOnChar c xs with
    | nil => exact absurd h (splitOnChar_ne_nil c xs)
    | cons g gs =>
      rw [h] at ih
      by_cases hx : x = c
      · subst hx
        simp [List.takeWhile]
      · simp only [if_neg hx, List.headI, List.takeWhile]
        have hxb : (x != c) = true := by simp [hx]
        rw [hxb]
        simpa using ih

/-- Splitting at the first separator occurrence. -/
theorem splitOnChar_append (c : Char) (a b : List Char) (ha : c ∉ a) :
    splitOnChar c (a ++ c :: b) = a :: splitOnChar c b := by
  induction a with
  | nil =>
    simp only [List.nil_append]
    have hstep : splitOnChar c (c :: b) =
        match splitOnChar c b with
        | [] => [[]]
        | g :: gs => if c = c then [] :: g :: gs else (c :: g) :: gs := rfl
    cases h : splitOnChar c b with
    | nil => exact absurd h (splitOnChar_ne_nil c b)
    | cons g gs => rw [hstep, h]; simp
  | cons x xs ih =>
    have hx : x ≠ c := fun hh => ha (hh ▸ List.mem_cons_self x xs)
    have ha' : c ∉ xs := fun hh => ha (List.mem_cons_of_mem _ hh)
    simp only [List.cons_append]
    have hstep : splitOnChar c (x :: (xs ++ c :: b)) =
        match splitOnChar c (xs ++ c :: b) with
        | [] => [[]]
        | g :: gs => if x = c then [] :: g :: gs else (x :: g) :: gs := rfl
    rw [hstep, ih ha']
    simp [hx]

/-- A value whose `type` property is not the string `"query"` extracts to
the empty parameter mapping. -/
theorem extract_empty_of_not_query (dq : JSValue)
    (h : isQueryType (propOf dq ("type")) = false) :
    extractParametersFromQuery dq = .ok [] := by
  unfold extractParametersFromQuery
  cases htr : truthy dq
  · simp
  · simp [h]

/-- `decodeTry` produces a `ValidationError` only from the fragment test,
and that error carries the field `"url"` and the input URL. -/
theorem decodeTry_validation (url : String) (m f v : String)
    (h : decodeTry url = .error (.validationError m f v)) :
    m = "No fragment found in URL" ∧ f = "url" ∧ v = url := by
  unfold decodeTry at h
  by_cases hf : fragmentOf url = ""
  · rw [if_pos hf] at h
    simp only [Except.error.injEq, MbError.validationError.injEq] at h
    exact ⟨h.1.symm, h.2.1.symm, h.2.2.symm⟩
  · rw [if_neg hf] at h
    cases hdf : decodeFragment (fragmentOf url) with
    | ok p => rw [hdf] at h; cases h
    | error e1 => rw [hdf] at h; simp only [Except.error.injEq] at h; cases h

/-! ### Claim C1 -/

/-- Claim C1 as stated is false: the source guards each copy with a JS
truthiness test (`if (query.filter)`), so a listed key that is *present with
a falsy value* is dropped.  Here `limit` is present in the source query
object with value `0`, yet the produced mapping is empty. -/
theorem c1_counterexample :
    extractParametersFromQuery
      (JSValue.obj [(("type"), JSValue.str ("query")),
                    (("query"), JSValue.obj [(("limit"), JSValue.num 0 0)])]) = .ok [] ∧
    objLookup [(("limit"), JSValue.num 0 0)] ("limit") = JSValue.num 0 0 :=
  ⟨rfl, rfl⟩

/-- Claim C1, amended: for a dataset query of type `"query"` whose `query`
sub-value is an object `q`, the extracted mapping contains exactly the keys
among the six listed ones that are present in `q` *with a truthy value*,
renamed per the table (`filter → filters`, ..., `limit → limit`), copied
verbatim, and no other keys (`expectedParams` spells this out). -/
theorem c1_amended (dq : JSValue) (q : List (String × JSValue))
    (htr : truthy dq = true)
    (hty : propOf dq ("type") = JSValue.str ("query"))
    (hq : propOf dq ("query") = JSValue.obj q) :
    extractParametersFromQuery dq = .ok (expectedParams q) := by
  unfold extractParametersFromQuery
  rw [htr, hty, hq]
  simp [isQueryType, getProp, propOf, expectedParams]

/-- Witness for C1 (amended): a query object with a truthy `filter`, a falsy
`limit` (0) and the other four keys absent yields exactly `filters`. -/
theorem c1_amended_witness :
    extractParametersFromQuery
      (JSValue.obj [(("type"), JSValue.str ("query")),
        (("query"), JSValue.obj [(("filter"), JSValue.arr [JSValue.str ("=")]),
                                 (("limit"), JSValue.num 0 0)])]) =
      .ok [(("filters"), JSValue.arr [JSValue.str ("=")])] :=
  c1_amended _ [(("filter"), JSValue.arr [JSValue.str ("=")]), (("limit"), JSValue.num 0 0)]
    rfl rfl rfl

/-! ### Claim C2 -/

/-- Claim C2 as stated is false: `extractParametersFromQuery` is *not*
total.  On a dataset query whose `type` is `"query"` but which has no
`query` sub-object, the unguarded read `query.filter` throws a
`TypeError`. -/
theorem c2_counterexample :
    extractParametersFromQuery (JSValue.obj [(("type"), JSValue.str ("query"))]) =
      .error ⟨("TypeError"), ("Cannot read properties of undefined (reading filter)")⟩ :=
  rfl

/-- Claim C2, amended: `extractParametersFromQuery` throws exactly when the
dataset query is truthy, its `type` is the string `"query"`, and its `query`
sub-value is `null` or `undefined`; on every other input it returns a
mapping without throwing. -/
theorem c2_amended (dq : JSValue) :
    exceptIsOk (extractParametersFromQuery dq) = false ↔
      (truthy dq = true ∧ isQueryType (propOf dq ("type")) = true ∧
        (propOf dq ("query") = JSValue.null ∨ propOf dq ("query") = JSValue.undefined)) := by
  unfold extractParametersFromQuery
  cases htr : truthy dq
  · simp [exceptIsOk]
  · cases hty : isQueryType (propOf dq ("type"))
    · simp [exceptIsOk]
    · cases hq : propOf dq ("query") <;> simp [getProp, exceptIsOk, hq]

/-! ### Claim C3 -/

/-- Claim C3's universal sub-claim is false: Node's base64 decoder is
lenient (it skips characters outside the alphabet — for whitespace this is
documented behaviour), so a fragment that is *syntactically invalid*
standard base64 can still decode to valid JSON, and `decode` then succeeds
instead of raising.  The fragment `" e30"` (leading space) is invalid
base64, decodes to `"\x7b\x7d"`, and `decode` returns a payload. -/
theorem c3_counterexample :
    fragmentOf ("url# e30") = (" e30") ∧
    isValidStdBase64 (" e30") = false ∧
    decode ("url# e30") =
      .ok ⟨.undefined, .undefined, [], .undefined, .undefined, .undefined, .undefined⟩ :=
  ⟨rfl, rfl, rfl⟩

/-- Claim C3, amended: *whenever* `decode` fails, the raised error is a
`ValidationError` carrying field `"url"` and the original input string —
never a raw decode or parse exception.  (But not every invalid-base64 input
makes it fail, per the counterexample.) -/
theorem c3_amended (url : String) (e : MbError) (h : decode url = .error e) :
    ∃ m, e = MbError.validationError m ("url") url := by
  unfold decode at h
  cases hdt : decodeTry url with
  | ok p => rw [hdt] at h; cases h
  | error e0 =>
    rw [hdt] at h
    cases e0 with
    | validationError m f v =>
      simp only [rethrowAsValidation, Except.error.injEq] at h
      obtain ⟨hm, hf, hv⟩ := decodeTry_validation url m f v hdt
      exact ⟨m, by rw [← h, hf, hv]⟩
    | apiError m s ep t =>
      simp only [rethrowAsValidation, Except.error.injEq] at h
      exact ⟨_, h.symm⟩
    | timeoutError m op t =>
      simp only [rethrowAsValidation, Except.error.injEq] at h
      exact ⟨_, h.symm⟩
    | jsRaw e1 =>
      simp only [rethrowAsValidation, Except.error.injEq] at h
      exact ⟨_, h.symm⟩

/-- Witness for C3 (amended) at the spec's own concrete scenario: the
hash-less input fails and the error is a `ValidationError` with field
`"url"` and the input as value. -/
theorem c3_amended_witness :
    ∃ m, MbError.validationError ("No fragment found in URL") ("url") ("no-hash-here") =
      MbError.validationError m ("url") ("no-hash-here") :=
  c3_amended ("no-hash-here") _ rfl

/-! ### Claim C4 -/

/-- Claim C4 as stated is false for the client implementation: on a timed-out
request, `MetabaseClient.makeRequest` raises `ApiError` with status code 0
(its `fetchWithTimeout` throws a plain `Error`, and its `catch` rethrows only
`ApiError`), not a `TimeoutError`. -/
theorem c4_counterexample :
    MetabaseClient.makeRequest 30000 ("/api/card/1") .hangs =
      .error (.apiError ("Unexpected error: Request timeout after 30000ms") 0 ("/api/card/1")
        ("Request timeout after 30000ms")) :=
  rfl

/-- Claim C4, amended: for every configured timeout and endpoint, a request
that never completes makes the server-side `ApiClient.makeRequest` raise
`TimeoutError` with `timeoutMs` equal to the configured timeout, while
`MetabaseClient.makeRequest` wraps the same condition into `ApiError` with
status code 0. -/
theorem c4_amended (timeout : Nat) (endpoint : String) :
    ApiClient.makeRequest timeout endpoint .hangs =
      .error (.timeoutError ("Request timeout after " ++ toString timeout ++ "ms") ("fetch")
        timeout) ∧
    MetabaseClient.makeRequest timeout endpoint .hangs =
      .error (.apiError
        ("Unexpected error: " ++ ("Request timeout after " ++ toString timeout ++ "ms"))
        0 endpoint ("Request timeout after " ++ toString timeout ++ "ms")) :=
  ⟨rfl, rfl⟩

/-! ### Claim C5 -/

/-- Claim C5 as stated is false: `\x7b ...defaultOptions, ...options \x7d`
replaces the `headers` object *wholesale* when the caller supplies one.
With caller headers `\x7bAccept: text/plain\x7d`, the executed call's
headers no longer contain the default `X-API-Key` (nor `Content-Type`),
although the caller never set those names. -/
theorem c5_counterexample :
    objLookup (ApiClient.requestOptionsOf ("secret")
        [(("headers"), JSValue.obj [(("Accept"), JSValue.str ("text/plain"))])]) ("headers") =
      JSValue.obj [(("Accept"), JSValue.str ("text/plain"))] ∧
    propOf (objLookup (ApiClient.requestOptionsOf ("secret")
        [(("headers"), JSValue.obj [(("Accept"), JSValue.str ("text/plain"))])]) ("headers"))
      ("X-API-Key") = JSValue.undefined :=
  ⟨rfl, rfl⟩

/-- Claim C5, amended: in both implementations the caller-supplied `headers`
binding, when present, replaces the default header object wholesale; the
defaults (content type and the `X-API-Key` secret) are used only when the
caller's options carry no `headers` key at all. -/
theorem c5_amended (apiKey : String) (options : List (String × JSValue)) :
    (∀ h, lastLookup options ("headers") = some h →
      objLookup (ApiClient.requestOptionsOf apiKey options) ("headers") = h ∧
      objLookup (MetabaseClient.requestOptionsOf apiKey options) ("headers") = h) ∧
    (lastLookup options ("headers") = none →
      objLookup (ApiClient.requestOptionsOf apiKey options) ("headers") =
        defaultHeadersObj apiKey ∧
      objLookup (MetabaseClient.requestOptionsOf apiKey options) ("headers") =
        defaultHeadersObj apiKey) := by
  constructor
  · intro h hsome
    refine ⟨?_, ?_⟩ <;>
      simp only [ApiClient.requestOptionsOf, MetabaseClient.requestOptionsOf,
        objLookup_objSpreadFields, hsome]
  · intro hnone
    refine ⟨?_, ?_⟩ <;>
      · simp only [ApiClient.requestOptionsOf, MetabaseClient.requestOptionsOf,
          objLookup_objSpreadFields, hnone]
        simp [objLookup]

/-- Witness for C5 (amended): caller-supplied empty headers object replaces
the defaults in both implementations. -/
theorem c5_amended_witness :
    objLookup (ApiClient.requestOptionsOf ("k") [(("headers"), JSValue.obj [])]) ("headers") =
      JSValue.obj [] ∧
    objLookup (MetabaseClient.requestOptionsOf ("k") [(("headers"), JSValue.obj [])])
      ("headers") = JSValue.obj [] :=
  (c5_amended ("k") [(("headers"), JSValue.obj [])]).1 (JSValue.obj []) rfl

/-! ### Claim C6 -/

/-- Claim C6 as stated is false: `url.split('#')[1]` is the chunk *between*
the first and second `#`, not everything after the first `#`.  On
`"h#e30#e30"` the code decodes `"e30"` (and succeeds with an empty payload),
whereas decoding the full remainder `"e30#e30"` fails. -/
theorem c6_counterexample :
    fragmentOf ("h#e30#e30") = ("e30") ∧
    afterFirstHash ("h#e30#e30") = ("e30#e30") ∧
    exceptIsOk (decode ("h#e30#e30")) = true ∧
    exceptIsOk (decodeSpecModel ("h#e30#e30")) = false :=
  ⟨rfl, rfl, rfl, rfl⟩

/-- Claim C6, amended: for every input of the form `a#b` (first `#` shown),
the fragment the decoder operates on — and hands to the base64 decoder — is
the prefix of `b` up to (not including) the next `#`, i.e. the chunk between
the first and second `#` of the whole input. -/
theorem c6_amended (a b : List Char) (ha : ('#') ∉ a)
    (hne : b.takeWhile (fun x => x != '#') ≠ []) :
    fragmentOf (String.mk (a ++ '#' :: b)) = String.mk (b.takeWhile (fun x => x != '#')) ∧
    decode (String.mk (a ++ '#' :: b)) =
      rethrowAsValidation (String.mk (a ++ '#' :: b))
        (match decodeFragment (String.mk (b.takeWhile (fun x => x != '#'))) with
         | .ok p => .ok p
         | .error e => .error (MbError.jsRaw e)) := by
  have hfrag : fragmentOf (String.mk (a ++ '#' :: b)) =
      String.mk (b.takeWhile (fun x => x != '#')) := by
    unfold fragmentOf
    have htl : (String.mk (a ++ '#' :: b)).toList = a ++ '#' :: b := rfl
    rw [htl, splitOnChar_append _ _ _ ha]
    cases h : splitOnChar '#' b with
    | nil => exact absurd h (splitOnChar_ne_nil _ b)
    | cons g gs =>
      have hg : g = b.takeWhile (fun x => x != '#') := by
        have := splitOnChar_headI '#' b
        rw [h] at this
        simpa [List.headI] using this
      simp [hg]
  refine ⟨hfrag, ?_⟩
  have hne' : String.mk (b.takeWhile (fun x => x != '#')) ≠ "" := by
    intro hh
    apply hne
    have : (String.mk (b.takeWhile (fun x => x != '#'))).data = ("" : String).data := by
      rw [hh]
    simpa using this
  unfold decode decodeTry
  rw [hfrag, if_neg hne']

/-- Witness for C6 (amended) on `"h#e30#zzz"`-shaped input: the fragment in
use is `"e30"`, the prefix of the remainder up to the second `#`. -/
theorem c6_amended_witness :
    fragmentOf (String.mk (['h'] ++ '#' :: ("e30#zzz").toList)) =
      String.mk (("e30#zzz").toList.takeWhile (fun x => x != '#')) ∧
    decode (String.mk (['h'] ++ '#' :: ("e30#zzz").toList)) =
      rethrowAsValidation (String.mk (['h'] ++ '#' :: ("e30#zzz").toList))
        (match decodeFragment (String.mk (("e30#zzz").toList.takeWhile (fun x => x != '#'))) with
         | .ok p => .ok p
         | .error e => .error (MbError.jsRaw e)) :=
  c6_amended ['h'] (("e30#zzz").toList) (by decide) (by decide)

/-! ### Claim C7 -/

/-- Claim C7: both `makeRequest`s classify a completed response as the claim
says — non-2xx raises `ApiError` with the status, the input endpoint and the
body text; a 2xx whose content type is absent or not JSON raises `ApiError`
with the first 500 characters of the body; a 2xx with a JSON content type
returns the parsed body verbatim. -/
theorem c7_classification (timeout : Nat) (endpoint : String) (r : FetchResponse) :
    (responseOk r = false →
      ApiClient.makeRequest timeout endpoint (.completes r) =
        .error (.apiError ("API request failed: " ++ toString r.status ++ " " ++ r.statusText)
          r.status endpoint r.body) ∧
      MetabaseClient.makeRequest timeout endpoint (.completes r) =
        .error (.apiError ("API request failed: " ++ toString r.status ++ " " ++ r.statusText)
          r.status endpoint r.body)) ∧
    (responseOk r = true → contentTypeIsJson r.contentType = false →
      ApiClient.makeRequest timeout endpoint (.completes r) =
        .error (.apiError ("Non-JSON response received") r.status endpoint (r.body.take 500)) ∧
      MetabaseClient.makeRequest timeout endpoint (.completes r) =
        .error (.apiError ("Non-JSON response received") r.status endpoint (r.body.take 500))) ∧
    (∀ v, responseOk r = true → contentTypeIsJson r.contentType = true →
      jsonParse r.body = .ok v →
      ApiClient.makeRequest timeout endpoint (.completes r) = .ok v ∧
      MetabaseClient.makeRequest timeout endpoint (.completes r) = .ok v) := by
  refine ⟨fun hok => ?_, fun hok hct => ?_, fun v hok hct hp => ?_⟩
  · constructor <;>
      simp [ApiClient.makeRequest, MetabaseClient.makeRequest, ApiClient.fetchWithTimeout,
        MetabaseClient.fetchWithTimeout, classifyResponse, hok,
        ApiClient.wrapCatch, MetabaseClient.wrapCatch]
  · constructor <;>
      simp [ApiClient.makeRequest, MetabaseClient.makeRequest, ApiClient.fetchWithTimeout,
        MetabaseClient.fetchWithTimeout, classifyResponse, hok, hct,
        ApiClient.wrapCatch, MetabaseClient.wrapCatch]
  · constructor <;>
      simp [ApiClient.makeRequest, MetabaseClient.makeRequest, ApiClient.fetchWithTimeout,
        MetabaseClient.fetchWithTimeout, classifyResponse, hok, hct, hp,
        ApiClient.wrapCatch, MetabaseClient.wrapCatch]

/-- Witness for C7 at the claim's concrete scenarios: the 404 with body
`"Not found."`, a 200 `text/html` page, and a 200 JSON body. -/
theorem c7_classification_witness :
    ApiClient.makeRequest 30000 ("/api/card/999999")
        (.completes ⟨404, ("Not Found"), some ("text/plain"), ("Not found.")⟩) =
      .error (.apiError ("API request failed: 404 Not Found") 404 ("/api/card/999999")
        ("Not found.")) ∧
    ApiClient.makeRequest 30000 ("/api/x")
        (.completes ⟨200, ("OK"), some ("text/html"), ("<html>")⟩) =
      .error (.apiError ("Non-JSON response received") 200 ("/api/x")
        (("<html>" : String).take 500)) ∧
    ApiClient.makeRequest 30000 ("/api/x")
        (.completes ⟨200, ("OK"), some ("application/json"), ("\x7b\x7d")⟩) =
      .ok (JSValue.obj []) :=
  ⟨((c7_classification 30000 ("/api/card/999999")
      ⟨404, ("Not Found"), some ("text/plain"), ("Not found.")⟩).1 (by decide)).1,
   ((c7_classification 30000 ("/api/x")
      ⟨200, ("OK"), some ("text/html"), ("<html>")⟩).2.1 (by decide) (by decide)).1,
   ((c7_classification 30000 ("/api/x")
      ⟨200, ("OK"), some ("application/json"), ("\x7b\x7d")⟩).2.2 (JSValue.obj [])
      (by decide) (by decide) rfl).1⟩

/-! ### Claim C8 -/

/-- Claim C8: whenever the decoded JSON payload is an object whose
`dataset_query` is absent or has type `"native"`, `decode` succeeds and the
payload's `parameters` is the empty mapping (the other fields are the
payload's corresponding top-level values). -/
theorem c8_native_or_absent (url : String) (fields : List (String × JSValue))
    (hfrag : fragmentOf url ≠ "")
    (hparse : jsonParse (nodeB64Utf8 (fragmentOf url)) = .ok (JSValue.obj fields))
    (hdq : objLookup fields ("dataset_query") = JSValue.undefined ∨
           propOf (objLookup fields ("dataset_query")) ("type") = JSValue.str ("native")) :
    decode url = .ok ⟨objLookup fields ("original_card_id"), objLookup fields ("dataset_query"),
      [], objLookup fields ("display"), objLookup fields ("visualization_settings"),
      objLookup fields ("name"), objLookup fields ("description")⟩ := by
  have hempty : extractParametersFromQuery (objLookup fields ("dataset_query")) = .ok [] := by
    apply extract_empty_of_not_query
    cases hdq with
    | inl h => rw [h]; rfl
    | inr h => rw [h]; rfl
  have hdf : decodeFragment (fragmentOf url) =
      .ok ⟨objLookup fields ("original_card_id"), objLookup fields ("dataset_query"), [],
        objLookup fields ("display"), objLookup fields ("visualization_settings"),
        objLookup fields ("name"), objLookup fields ("description")⟩ := by
    unfold decodeFragment
    rw [hparse]
    simp [getProp, propOf, hempty]
  unfold decode decodeTry
  rw [if_neg hfrag, hdf]
  rfl

/-- Witness for C8: a URL whose fragment is the base64 encoding of a JSON
document with a native dataset query decodes to a payload with an empty
parameter mapping. -/
theorem c8_native_or_absent_witness :
    decode ("https://h/q#eyJkYXRhc2V0X3F1ZXJ5Ijp7InR5cGUiOiJuYXRpdmUifX0=") =
      .ok ⟨.undefined, JSValue.obj [(("type"), JSValue.str ("native"))], [], .undefined,
        .undefined, .undefined, .undefined⟩ :=
  c8_native_or_absent ("https://h/q#eyJkYXRhc2V0X3F1ZXJ5Ijp7InR5cGUiOiJuYXRpdmUifX0=")
    [(("dataset_query"), JSValue.obj [(("type"), JSValue.str ("native"))])]
    (by decide) rfl (Or.inr rfl)

/-! ### Claim C9 -/

/-- Claim C9: `decode` is deterministic — it is a pure function of its input
string, so two results obtained from the same input are structurally equal.
(The only per-call state of the JavaScript original is the `timestamp` a
`MetabaseError` captures, which the claim explicitly excludes from the
comparison; it is therefore absent from the model.) -/
theorem c9_deterministic (url : String) (r₁ r₂ : Except MbError Payload)
    (h₁ : decode url = r₁) (h₂ : decode url = r₂) : r₁ = r₂ :=
  h₁.symm.trans h₂

/-- Witness for C9 at the spec's concrete scenario `"no-hash-here"`. -/
theorem c9_deterministic_witness :
    Except.error
        (MbError.validationError ("No fragment found in URL") ("url") ("no-hash-here")) =
      decode ("no-hash-here") :=
  c9_deterministic ("no-hash-here") _ _ rfl rfl

/-! ### Claim C10 -/

/-- Claim C10: the client constructor strips exactly one trailing `/` from
the configured base address when present, the composed target address is the
stripped base concatenated with the endpoint, and a base given with or
without a single trailing slash yields the same target address. -/
theorem c10_base_url (base endpoint : String) :
    MetabaseClient.requestUrl base endpoint = stripTrailingSlash base ++ endpoint ∧
    (base.toList.getLast? = some '/' →
      stripTrailingSlash base = String.mk base.toList.dropLast) ∧
    (base.toList.getLast? ≠ some '/' →
      stripTrailingSlash base = base ∧
      stripTrailingSlash (base ++ ("/")) = base ∧
      MetabaseClient.requestUrl (base ++ ("/")) endpoint =
        MetabaseClient.requestUrl base endpoint) := by
  refine ⟨rfl, fun hslash => ?_, fun hnoslash => ?_⟩
  · unfold stripTrailingSlash
    rw [if_pos hslash]
  · have hbase : stripTrailingSlash base = base := by
      unfold stripTrailingSlash
      rw [if_neg hnoslash]
    have happ : (base ++ ("/")).toList = base.toList ++ ['/'] := by
      obtain ⟨l⟩ := base
      rfl
    have hstrip : stripTrailingSlash (base ++ ("/")) = base := by
      unfold stripTrailingSlash
      rw [happ, List.getLast?_concat, if_pos rfl, List.dropLast_concat]
      obtain ⟨l⟩ := base
      rfl
    refine ⟨hbase, hstrip, ?_⟩
    unfold MetabaseClient.requestUrl
    rw [hstrip, hbase]

/-- Witness for C10: `"http://h"` and `"http://h/"` compose the same target
address with endpoint `"/api"`. -/
theorem c10_base_url_witness :
    MetabaseClient.requestUrl ("http://h") ("/api") =
      stripTrailingSlash ("http://h") ++ ("/api") ∧
    stripTrailingSlash ("http://h") = ("http://h") ∧
    stripTrailingSlash (("http://h") ++ ("/")) = ("http://h") ∧
    MetabaseClient.requestUrl (("http://h") ++ ("/")) ("/api") =
      MetabaseClient.requestUrl ("http://h") ("/api") :=
  ⟨(c10_base_url ("http://h") ("/api")).1,
   ((c10_base_url ("http://h") ("/api")).2.2 (by decide)).1,
   ((c10_base_url ("http://h") ("/api")).2.2 (by decide)).2.1,
   ((c10_base_url ("http://h") ("/api")).2.2 (by decide)).2.2⟩
